import Mathlib

/-!
rboot: the Brain registry, the in-memory Brain and the Message record.

A shallow embedding of `brain.go` and `message.go`.

* A Go `map[string]V` is a finite map with distinct keys: `GoMap V`, an
  association list without duplicate keys.  `len m` is the number of entries,
  `v, ok := m[k]` is `lookup`, `m[k] = v` is `insert`, `delete(m, k)` is
  `erase`.
* A Go `string` is a `String`: the code compares names for equality and
  concatenates them into messages, nothing else.
* A Go value of a function type is either `nil` or a function: `Factory F` is
  `Option F`, where `F` stands for the non-nil values of `func() Brain`.
* A Go `error` is either `nil` or carries a message: `error` is
  `Option String`.
* A Go `[]byte` is either the nil slice or a non-nil slice with its bytes:
  `ByteSlice` is `Option (List UInt8)`.
* The package-level variable `brains` is passed explicitly; a `panic` is an
  `Except.error` carrying the panic message.
* `memory.mu` is locked on entry and unlocked on exit of each method, so a
  sequential run leaves it as it found it; the embedding keeps `items` only.
-/

namespace rboot

/-- A Go `map[string]V`: finitely many entries, no key twice. -/
abbrev GoMap (V : Type) := AList (fun _ : String => V)

/-- The builtin `len` of a map: the number of its entries. -/
def GoMap.len {V : Type} (m : GoMap V) : Nat := m.entries.length

/-- A value of type `func() Brain`: `none` is `nil`. -/
abbrev Factory (F : Type) := Option F

/-- A Go `error` value: `none` is `nil`, `some msg` an error whose `Error()` is `msg`. -/
abbrev error := Option String

/-- A Go `[]byte` value: `none` is the nil slice, `some bs` a non-nil slice holding `bs`. -/
abbrev ByteSlice := Option (List UInt8)

/-- The builtin `len` of a slice. -/
def ByteSlice.len : ByteSlice → Nat
  | none => 0
  | some bs => bs.length

/-- `var brains = make(map[string]func() Brain)`: the registry before any registration. -/
def brains₀ {F : Type} : GoMap (Factory F) := ∅

/-- `RegisterBrain(name, m)` run on the registry `brains`: the panic message, or the
registry after the call. -/
def RegisterBrain {F : Type} (brains : GoMap (Factory F)) (name : String) (m : Factory F) :
    Except String (GoMap (Factory F)) :=
  if name = "" then
    .error "RegisterBrain: brain must have a name"
  else
    match brains.lookup name with
    | some _ => .error ("RegisterBrain: brains named " ++ name ++ " already registered. ")
    | none => .ok (brains.insert name m)

/-- `DetectBrain(name)` run on the registry `brains`: the returned pair. -/
def DetectBrain {F : Type} (brains : GoMap (Factory F)) (name : String) : Factory F × error :=
  match brains.lookup name with
  | some brain => (brain, none)
  | none =>
    if brains.len = 0 then
      (none, some "no Brain available")
    else if name = "" then
      if brains.len = 1 then
        -- `for _, brain := range brains { return brain, nil }`
        match brains.entries with
        | e :: _ => (e.2, none)
        | [] => (none, some "multiple brains available; must choose one")
      else
        (none, some "multiple brains available; must choose one")
    else
      (none, some ("unknown brain '" ++ name ++ "'"))

/-- The `memory` brain.  `items` is made by `newMemory` and never reassigned, so it is
never the nil map. -/
structure memory where
  items : GoMap ByteSlice

/-- `newMemory()`: a store with an empty map. -/
def newMemory : Unit → memory := fun _ => { items := ∅ }

/-- `(m *memory).Set(key, value)`: the store afterwards and the returned error. -/
def memory.Set (m : memory) (key : String) (value : ByteSlice) : memory × error :=
  ({ items := m.items.insert key value }, none)

/-- `(m *memory).Get(key)`: the returned slice (the store is left as it was). -/
def memory.Get (m : memory) (key : String) : ByteSlice :=
  match m.items.lookup key with
  | none => some []
  | some v => v

/-- `(m *memory).Remove(key)`: the store afterwards and the returned error. -/
def memory.Remove (m : memory) (key : String) : memory × error :=
  ({ items := m.items.erase key }, none)

/-- `func init()`: the registration of the memory brain, run on the fresh registry. -/
def init : Except String (GoMap (Factory (Unit → memory))) :=
  RegisterBrain brains₀ "memory" (some newMemory)

/-- The registries that successful `RegisterBrain` calls build from the fresh one. -/
inductive Built {F : Type} : GoMap (Factory F) → Prop
  | fresh : Built brains₀
  | register {brains brains' : GoMap (Factory F)} (name : String) (m : Factory F) :
      Built brains → RegisterBrain brains name m = .ok brains' → Built brains'

/-- The registries reachable after package initialisation: the one `init` leaves, then
any number of successful `RegisterBrain` calls. -/
inductive AfterInit : GoMap (Factory (Unit → memory)) → Prop
  | start {brains : GoMap (Factory (Unit → memory))} : init = .ok brains → AfterInit brains
  | register {brains brains' : GoMap (Factory (Unit → memory))} (name : String)
      (m : Factory (Unit → memory)) :
      AfterInit brains → RegisterBrain brains name m = .ok brains' → AfterInit brains'

/-! ### `message.go`

`Message` carries `encoding/json` struct tags and nothing else; its serialized form is
what `json.Marshal` writes from those tags.  `Marshal` below follows the rules of
`encoding/json` for a struct: the fields in declaration order, each under the name of its
tag (or its Go field name when it has no tag), a field tagged `omitempty` left out when
`isEmptyValue` holds of it.  A field that is written is encoded, and the first value that
cannot be encoded makes `json.Marshal` return an error and no output: a `float64` that is
NaN or an infinity, a `User` or a value of `Mate` that its own encoder rejects.  The
serialized form is kept as the list of members written, in order; values are kept as Go
values, the text of a number is not modelled. -/

/-- A Go `float64`, given by its IEEE 754 bit pattern (`math.Float64bits`), a number
below `2 ^ 64`: bit 63 is the sign, bits 52 to 62 the exponent, bits 0 to 51 the fraction.
The zero value has the pattern 0. -/
structure Float64 where
  bits : Nat

/-- The exponent field of a `float64`. -/
def Float64.exponent (x : Float64) : Nat := (x.bits % 2 ^ 64) / 2 ^ 52 % 2 ^ 11

/-- The test `math.IsInf(f, 0) || math.IsNaN(f)`: the exponent field is all ones. -/
def Float64.isInfOrNaN (x : Float64) : Bool := x.exponent == 2047

/-- `type Location struct { Lat float64; Long float64 }`. -/
structure Location where
  Lat : Float64
  Long : Float64

/-- `type Message struct`.  `U` stands for the type `User`, declared elsewhere, and `A` for
the values an `interface{}` holds; `Mate` is `none` for the nil map. -/
structure Message (U A : Type) where
  Channel : String
  To : U
  From : U
  Sender : U
  Content : String
  Broadcast : Bool
  Mate : Option (GoMap A)
  Location : Location

/-- The Go values found in the fields of `Message`, by kind.  A struct value is given by
the members `json.Marshal` writes for it. -/
inductive FieldValue (U A : Type) where
  | string (s : String)
  | bool (b : Bool)
  | map (m : Option (GoMap A))
  | struct (members : List (String × Float64))
  | user (u : U)

/-- A field of a struct as `json.Marshal` sees it: the key it is written under, whether
its tag has `omitempty`, and its value. -/
structure StructField (U A : Type) where
  key : String
  omitempty : Bool
  value : FieldValue U A

/-- The function `isEmptyValue` of `encoding/json`: a string or a map is empty when its
length is 0 (the nil map has length 0), a bool when it is false; a struct never is. -/
def isEmptyValue {U A : Type} : FieldValue U A → Bool
  | .string s => s.length == 0
  | .bool b => !b
  | .map none => true
  | .map (some m) => m.len == 0
  | .struct _ => false
  | .user _ => false

/-- Whether the encoder of `encoding/json` accepts a value.  Strings and bools always
encode, the nil map encodes as `null`; a map encodes when each of its values does, a
struct of floats when none is NaN or an infinity (`floatEncoder` reports
`UnsupportedValueError` otherwise).  `userOk` and `valueOk` say which values of `User`
and of `interface{}` encode: both types are declared outside this file. -/
def encodes {U A : Type} (userOk : U → Bool) (valueOk : A → Bool) : FieldValue U A → Bool
  | .string _ => true
  | .bool _ => true
  | .map none => true
  | .map (some m) => m.entries.all fun e => valueOk e.2
  | .struct members => members.all fun p => !p.2.isInfOrNaN
  | .user u => userOk u

/-- The members of a `Location`: it has no tags, so the keys are the Go field names. -/
def Location.members (l : Location) : List (String × Float64) :=
  [("Lat", l.Lat), ("Long", l.Long)]

/-- The fields of a `Message` with their tags, in declaration order. -/
def Message.fields {U A : Type} (msg : Message U A) : List (StructField U A) :=
  [ { key := "channel", omitempty := true, value := .string msg.Channel },
    { key := "to", omitempty := false, value := .user msg.To },
    { key := "from", omitempty := false, value := .user msg.From },
    { key := "sender", omitempty := false, value := .user msg.Sender },
    { key := "content", omitempty := false, value := .string msg.Content },
    { key := "broadcast", omitempty := true, value := .bool msg.Broadcast },
    { key := "mate", omitempty := true, value := .map msg.Mate },
    { key := "location", omitempty := true, value := .struct msg.Location.members } ]

/-- The fields of a `Message` that `omitempty` does not leave out, in order. -/
def Message.written {U A : Type} (msg : Message U A) : List (StructField U A) :=
  msg.fields.filter fun f => !(f.omitempty && isEmptyValue f.value)

/-- The result of `json.Marshal` on a `Message`: `none` when it returns an error (and no
output), `some members` with the members it writes, in order, when it returns the
encoding. -/
def Marshal {U A : Type} (userOk : U → Bool) (valueOk : A → Bool) (msg : Message U A) :
    Option (List (String × FieldValue U A)) :=
  if msg.written.all fun f => encodes userOk valueOk f.value then
    some (msg.written.map fun f => (f.key, f.value))
  else
    none

/-- The keys of a list of members. -/
def keys {V : Type} (members : List (String × V)) : List String := members.map Prod.fst

/-- The string `s` occurs in `t`. -/
def Contains (t s : String) : Prop := ∃ pre post : String, t = pre ++ s ++ post

/-! ## Lemmas on `DetectBrain` and `RegisterBrain` -/

theorem DetectBrain_of_lookup {F : Type} {brains : GoMap (Factory F)} {name : String}
    {f : Factory F} (h : brains.lookup name = some f) :
    DetectBrain brains name = (f, none) := by
  simp [DetectBrain, h]

theorem DetectBrain_of_len_zero {F : Type} {brains : GoMap (Factory F)} (name : String)
    (h : brains.len = 0) :
    DetectBrain brains name = (none, some "no Brain available") := by
  have hnil : brains.entries = [] := List.length_eq_zero.mp h
  have hlk : brains.lookup name = none := by
    rw [AList.lookup_eq_none, AList.mem_keys, AList.keys, List.keys, hnil]
    simp
  simp [DetectBrain, hlk, h]

theorem DetectBrain_empty_of_len_one {F : Type} {brains : GoMap (Factory F)}
    (hno : brains.lookup "" = none) (h : brains.len = 1)
    {e : Sigma fun _ : String => Factory F} (he : e ∈ brains.entries) :
    DetectBrain brains "" = (e.2, none) := by
  have h1 : brains.entries.length = 1 := h
  obtain ⟨x, hx⟩ := List.length_eq_one.mp h1
  rw [hx] at he
  have hex : e = x := by simpa using he
  subst hex
  simp [DetectBrain, hno, h, hx]

theorem DetectBrain_empty_of_len_many {F : Type} {brains : GoMap (Factory F)}
    (hno : brains.lookup "" = none) (h0 : brains.len ≠ 0) (h1 : brains.len ≠ 1) :
    DetectBrain brains "" = (none, some "multiple brains available; must choose one") := by
  simp [DetectBrain, hno, h0, h1]

theorem DetectBrain_unknown {F : Type} {brains : GoMap (Factory F)} {name : String}
    (hno : brains.lookup name = none) (h0 : brains.len ≠ 0) (hne : name ≠ "") :
    DetectBrain brains name = (none, some ("unknown brain '" ++ name ++ "'")) := by
  simp [DetectBrain, hno, h0, hne]

theorem lookup_isSome_of_mem {F : Type} {brains : GoMap (Factory F)} {name : String}
    (h : name ∈ brains) : ∃ f, brains.lookup name = some f := by
  have := AList.lookup_isSome.mpr h
  exact Option.isSome_iff_exists.mp this

theorem lookup_none_of_not_mem {F : Type} {brains : GoMap (Factory F)} {name : String}
    (h : name ∉ brains) : brains.lookup name = none :=
  AList.lookup_eq_none.mpr h

theorem RegisterBrain_ok_iff {F : Type} (brains brains' : GoMap (Factory F)) (name : String)
    (m : Factory F) :
    RegisterBrain brains name m = .ok brains' ↔
      name ≠ "" ∧ name ∉ brains ∧ brains' = brains.insert name m := by
  unfold RegisterBrain
  by_cases hname : name = ""
  · simp [hname]
  · cases hlk : brains.lookup name with
    | some f =>
      have hmem : name ∈ brains := AList.lookup_isSome.mp (by simp [hlk])
      simp [hname, hmem]
    | none =>
      have hmem : name ∉ brains := AList.lookup_eq_none.mp hlk
      simp [hname, hmem, eq_comm]

theorem RegisterBrain_error_iff {F : Type} (brains : GoMap (Factory F)) (name : String)
    (m : Factory F) :
    (∃ msg, RegisterBrain brains name m = .error msg) ↔ (name = "" ∨ name ∈ brains) := by
  unfold RegisterBrain
  by_cases hname : name = ""
  · simp [hname]
  · cases hlk : brains.lookup name with
    | some f =>
      have hmem : name ∈ brains := AList.lookup_isSome.mp (by simp [hlk])
      simp [hname, hmem]
    | none =>
      have hmem : name ∉ brains := AList.lookup_eq_none.mp hlk
      simp [hname, hmem]

theorem Built.empty_not_mem {F : Type} {brains : GoMap (Factory F)} (h : Built brains) :
    "" ∉ brains := by
  induction h with
  | fresh => exact AList.not_mem_empty ""
  | register name m _ hreg ih =>
    obtain ⟨hname, _, rfl⟩ := (RegisterBrain_ok_iff _ _ _ _).mp hreg
    rw [AList.mem_insert]
    rintro (h | h)
    · exact hname h.symm
    · exact ih h

theorem AfterInit.lookup_memory {brains : GoMap (Factory (Unit → memory))}
    (h : AfterInit brains) : brains.lookup "memory" = some (some newMemory) := by
  induction h with
  | start hinit =>
    obtain ⟨_, _, rfl⟩ := (RegisterBrain_ok_iff _ _ _ _).mp hinit
    exact AList.lookup_insert _
  | register name m _ hreg ih =>
    obtain ⟨_, hnot, rfl⟩ := (RegisterBrain_ok_iff _ _ _ _).mp hreg
    have hne : "memory" ≠ name := by
      rintro rfl
      exact hnot (AList.lookup_isSome.mp (by rw [ih]; rfl))
    rw [AList.lookup_insert_ne hne, ih]

theorem len_ne_zero_of_mem {V : Type} {m : GoMap V} {k : String} (h : k ∈ m) : m.len ≠ 0 := by
  intro h0
  have hnil : m.entries = [] := List.length_eq_zero.mp h0
  rw [AList.mem_keys, AList.keys, hnil] at h
  simp at h

theorem unknown_ne_no_Brain (name : String) :
    "unknown brain '" ++ name ++ "'" ≠ "no Brain available" := by
  intro h
  have hd := congrArg (fun s : String => s.data.head?) h
  simp [String.data_append] at hd

/-! ## The claims -/

/-- C1: `DetectBrain(name)` follows the ordered table.  (1) A name that is a key of the
registry gives that key's factory and a nil error.  (2) Otherwise an empty registry gives
a nil factory and the error `no Brain available`.  (3) Otherwise the empty name gives the
only entry's factory and a nil error when the registry has exactly one entry, and a nil
factory with the error `multiple brains available; must choose one` when it has more.
(4) Otherwise the result is a nil factory and the error `unknown brain '<name>'`.  In
particular an empty registry gives `no Brain available` for the empty name and for every
other name. -/
theorem C1_DetectBrain_table {F : Type} (brains : GoMap (Factory F)) (name : String) :
    (name ∈ brains → ∃ f, brains.lookup name = some f ∧ DetectBrain brains name = (f, none)) ∧
    (name ∉ brains → brains.len = 0 →
      DetectBrain brains name = (none, some "no Brain available")) ∧
    (name ∉ brains → brains.len ≠ 0 → name = "" → brains.len = 1 →
      ∀ e ∈ brains.entries, DetectBrain brains name = (e.2, none)) ∧
    (name ∉ brains → brains.len ≠ 0 → name = "" → 2 ≤ brains.len →
      DetectBrain brains name = (none, some "multiple brains available; must choose one")) ∧
    (name ∉ brains → brains.len ≠ 0 → name ≠ "" →
      DetectBrain brains name = (none, some ("unknown brain '" ++ name ++ "'"))) ∧
    (brains.len = 0 →
      DetectBrain brains "" = (none, some "no Brain available") ∧
      DetectBrain brains name = (none, some "no Brain available")) := by
  refine ⟨?_, ?_, ?_, ?_, ?_, ?_⟩
  · intro h
    obtain ⟨f, hf⟩ := lookup_isSome_of_mem h
    exact ⟨f, hf, DetectBrain_of_lookup hf⟩
  · intro _ h0
    exact DetectBrain_of_len_zero name h0
  · intro hno _ hname h1 e he
    subst hname
    exact DetectBrain_empty_of_len_one (lookup_none_of_not_mem hno) h1 he
  · intro hno h0 hname h2
    subst hname
    exact DetectBrain_empty_of_len_many (lookup_none_of_not_mem hno) h0 (by omega)
  · intro hno h0 hne
    exact DetectBrain_unknown (lookup_none_of_not_mem hno) h0 hne
  · intro h0
    exact ⟨DetectBrain_of_len_zero "" h0, DetectBrain_of_len_zero name h0⟩

/-- C2: for a name registered with factory `f`, `DetectBrain(name)` returns `f` and a nil
error, whatever else the registry holds. -/
theorem C2_DetectBrain_registered {F : Type} (brains : GoMap (Factory F)) (name : String)
    (f : Factory F) (h : brains.lookup name = some f) :
    DetectBrain brains name = (f, none) :=
  DetectBrain_of_lookup h

theorem C2_DetectBrain_registered_witness :
    ((brains₀ : GoMap (Factory Nat)).insert "memory" (some 7) |>.insert "redis" (some 8)
        |>.insert "bolt" none).lookup "memory" = some (some 7) ∧
    DetectBrain ((brains₀ : GoMap (Factory Nat)).insert "memory" (some 7)
        |>.insert "redis" (some 8) |>.insert "bolt" none) "memory" = (some 7, none) :=
  ⟨by decide, C2_DetectBrain_registered _ "memory" (some 7) (by decide)⟩

/-- C3: `RegisterBrain(name, m)` panics exactly when `name` is empty or already
registered; otherwise it returns, and the registry afterwards maps `name` to `m`. -/
theorem C3_RegisterBrain_panics_iff {F : Type} (brains : GoMap (Factory F)) (name : String)
    (m : Factory F) :
    ((∃ msg, RegisterBrain brains name m = .error msg) ↔ (name = "" ∨ name ∈ brains)) ∧
    (¬ (name = "" ∨ name ∈ brains) →
      ∃ brains', RegisterBrain brains name m = .ok brains' ∧ brains'.lookup name = some m) ∧
    (∀ brains', RegisterBrain brains name m = .ok brains' → brains'.lookup name = some m) := by
  refine ⟨RegisterBrain_error_iff brains name m, ?_, ?_⟩
  · intro h
    rw [not_or] at h
    exact ⟨brains.insert name m, (RegisterBrain_ok_iff _ _ _ _).mpr ⟨h.1, h.2, rfl⟩,
      AList.lookup_insert brains⟩
  · intro brains' h
    obtain ⟨_, _, rfl⟩ := (RegisterBrain_ok_iff _ _ _ _).mp h
    exact AList.lookup_insert brains

/-- C4, as stated, fails at `name1 = ""`: the names `""` and `"memory"` differ and neither
is in the fresh registry, yet `RegisterBrain("", f1)` panics instead of succeeding. -/
theorem C4_counterexample :
    "" ≠ "memory" ∧ "" ∉ (brains₀ : GoMap (Factory Nat)) ∧
    "memory" ∉ (brains₀ : GoMap (Factory Nat)) ∧
    RegisterBrain (brains₀ : GoMap (Factory Nat)) "" (some 1)
      = .error "RegisterBrain: brain must have a name" ∧
    ¬ ∃ b1 : GoMap (Factory Nat), RegisterBrain brains₀ "" (some 1) = .ok b1 := by
  refine ⟨by decide, AList.not_mem_empty _, AList.not_mem_empty _, rfl, ?_⟩
  rintro ⟨b1, h⟩
  exact ((RegisterBrain_ok_iff _ _ _ _).mp h).1 rfl

/-- C4, amended: for non-empty names `name1 ≠ name2`, neither in the registry,
`RegisterBrain(name1, f1)` then `RegisterBrain(name2, f2)` both succeed, and a further
`RegisterBrain(name1, f)` panics. -/
theorem C4_register_two_then_duplicate {F : Type} (brains : GoMap (Factory F))
    (name1 name2 : String) (f1 f2 f : Factory F)
    (h1 : name1 ≠ "") (h2 : name2 ≠ "") (hne : name1 ≠ name2)
    (hn1 : name1 ∉ brains) (hn2 : name2 ∉ brains) :
    ∃ b1 b2, RegisterBrain brains name1 f1 = .ok b1 ∧ RegisterBrain b1 name2 f2 = .ok b2 ∧
      ∃ msg, RegisterBrain b2 name1 f = .error msg := by
  refine ⟨brains.insert name1 f1, (brains.insert name1 f1).insert name2 f2,
    (RegisterBrain_ok_iff _ _ _ _).mpr ⟨h1, hn1, rfl⟩,
    (RegisterBrain_ok_iff _ _ _ _).mpr ⟨h2, ?_, rfl⟩,
    (RegisterBrain_error_iff _ _ _).mpr (Or.inr ?_)⟩
  · rw [AList.mem_insert]
    rintro (h | h)
    · exact hne h.symm
    · exact hn2 h
  · rw [AList.mem_insert, AList.mem_insert]
    exact Or.inr (Or.inl rfl)

theorem C4_register_two_then_duplicate_witness :
    ∃ b1 b2 : GoMap (Factory Nat),
      RegisterBrain brains₀ "memory" (some 1) = .ok b1 ∧
      RegisterBrain b1 "redis" (some 2) = .ok b2 ∧
      ∃ msg, RegisterBrain b2 "memory" (some 3) = .error msg :=
  C4_register_two_then_duplicate brains₀ "memory" "redis" (some 1) (some 2) (some 3)
    (by decide) (by decide) (by decide) (AList.not_mem_empty _) (AList.not_mem_empty _)

/-- C5, as stated, fails on the empty registry: `"x"` is non-empty and unregistered, yet
`DetectBrain("x")` gives the error `no Brain available`, not the unknown-name error. -/
theorem C5_counterexample :
    "x" ≠ "" ∧ "x" ∉ (brains₀ : GoMap (Factory Nat)) ∧
    DetectBrain (brains₀ : GoMap (Factory Nat)) "x" = (none, some "no Brain available") ∧
    DetectBrain (brains₀ : GoMap (Factory Nat)) "x" ≠ (none, some "unknown brain 'x'") :=
  ⟨by decide, AList.not_mem_empty _, by decide, by decide⟩

/-- C5, amended: for a non-empty name that is not registered, in every registry that is
not empty, `DetectBrain(name)` returns a nil factory and the error
`unknown brain '<name>'`, whose message contains the name. -/
theorem C5_DetectBrain_unknown {F : Type} (brains : GoMap (Factory F)) (name : String)
    (hne : name ≠ "") (hno : name ∉ brains) (h0 : brains.len ≠ 0) :
    ∃ msg, DetectBrain brains name = (none, some msg) ∧
      msg = "unknown brain '" ++ name ++ "'" ∧ Contains msg name :=
  ⟨_, DetectBrain_unknown (lookup_none_of_not_mem hno) h0 hne, rfl, "unknown brain '", "'", rfl⟩

theorem C5_DetectBrain_unknown_witness :
    ∃ msg, DetectBrain ((brains₀ : GoMap (Factory Nat)).insert "memory" (some 1)) "redis"
        = (none, some msg) ∧
      msg = "unknown brain '" ++ "redis" ++ "'" ∧ Contains msg "redis" :=
  C5_DetectBrain_unknown _ "redis" (by decide) (by decide) (by decide)

/-- C6, as stated, names an error the code never returns: on the empty registry
`DetectBrain("")` gives a nil factory and an error whose message is `no Brain available`,
which is not `no backend available`. -/
theorem C6_counterexample :
    (brains₀ : GoMap (Factory Nat)).len = 0 ∧
    DetectBrain (brains₀ : GoMap (Factory Nat)) "" = (none, some "no Brain available") ∧
    (DetectBrain (brains₀ : GoMap (Factory Nat)) "").2 ≠ some "no backend available" :=
  ⟨by decide, by decide, by decide⟩

/-- C6, amended: when the registry holds zero entries, `DetectBrain(name)` returns a nil
factory and the error whose message is `no Brain available`, for every name, the empty
string included. -/
theorem C6_DetectBrain_empty_registry {F : Type} (brains : GoMap (Factory F)) (name : String)
    (h : brains.len = 0) :
    DetectBrain brains name = (none, some "no Brain available") ∧
    DetectBrain brains "" = (none, some "no Brain available") :=
  ⟨DetectBrain_of_len_zero name h, DetectBrain_of_len_zero "" h⟩

theorem C6_DetectBrain_empty_registry_witness :
    DetectBrain (brains₀ : GoMap (Factory Nat)) "memory" = (none, some "no Brain available") ∧
    DetectBrain (brains₀ : GoMap (Factory Nat)) "" = (none, some "no Brain available") :=
  C6_DetectBrain_empty_registry brains₀ "memory" (by decide)

/-- C7: when the registry holds exactly one entry, `DetectBrain("")` returns that entry's
factory and a nil error (also when that entry's key is the empty string). -/
theorem C7_DetectBrain_single_default {F : Type} (brains : GoMap (Factory F))
    (h : brains.len = 1) (e : Sigma fun _ : String => Factory F) (he : e ∈ brains.entries) :
    DetectBrain brains "" = (e.2, none) := by
  cases hlk : brains.lookup "" with
  | none => exact DetectBrain_empty_of_len_one hlk h he
  | some f =>
    have hmem : (⟨"", f⟩ : Sigma fun _ : String => Factory F) ∈ brains.entries :=
      AList.mem_lookup_iff.mp hlk
    have h1 : brains.entries.length = 1 := h
    obtain ⟨x, hx⟩ := List.length_eq_one.mp h1
    rw [hx] at he hmem
    have hex : e = x := by simpa using he
    have hfx : (⟨"", f⟩ : Sigma fun _ : String => Factory F) = x := by simpa using hmem
    rw [DetectBrain_of_lookup hlk, hex, ← hfx]

theorem C7_DetectBrain_single_default_witness :
    init = .ok ((brains₀ : GoMap (Factory (Unit → memory))).insert "memory" (some newMemory)) ∧
    GoMap.len ((brains₀ : GoMap (Factory (Unit → memory))).insert "memory" (some newMemory))
      = 1 ∧
    DetectBrain ((brains₀ : GoMap (Factory (Unit → memory))).insert "memory" (some newMemory)) ""
      = (some newMemory, none) :=
  ⟨rfl, rfl, C7_DetectBrain_single_default
    ((brains₀ : GoMap (Factory (Unit → memory))).insert "memory" (some newMemory)) rfl
    ⟨"memory", some newMemory⟩ (List.mem_singleton.mpr rfl)⟩

/-- C8: in every registry built by successful `RegisterBrain` calls that holds two or more
entries, `DetectBrain("")` returns a nil factory and the error
`multiple brains available; must choose one`. -/
theorem C8_DetectBrain_ambiguous {F : Type} (brains : GoMap (Factory F))
    (hb : Built brains) (h2 : 2 ≤ brains.len) :
    DetectBrain brains "" = (none, some "multiple brains available; must choose one") :=
  DetectBrain_empty_of_len_many (lookup_none_of_not_mem hb.empty_not_mem)
    (by omega) (by omega)

theorem C8_DetectBrain_ambiguous_witness :
    Built (((brains₀ : GoMap (Factory Nat)).insert "memory" (some 1)).insert "redis" (some 2)) ∧
    DetectBrain (((brains₀ : GoMap (Factory Nat)).insert "memory" (some 1)).insert "redis"
        (some 2)) "" = (none, some "multiple brains available; must choose one") :=
  have hb : Built (((brains₀ : GoMap (Factory Nat)).insert "memory" (some 1)).insert "redis"
      (some 2)) :=
    Built.register "redis" (some 2) (Built.register "memory" (some 1) Built.fresh rfl) rfl
  ⟨hb, C8_DetectBrain_ambiguous _ hb (by decide)⟩

/-- C9: in every store state, `Set(k, v)` returns a nil error and a following `Get(k)`
returns exactly `v` (the nil slice and the empty slice included); `Set` overwrites, so
after `Set(k, v1); Set(k, v2)` the value read back is `v2`. -/
theorem C9_Set_then_Get (m : memory) (k : String) (v v1 v2 : ByteSlice) :
    (m.Set k v).2 = none ∧ (m.Set k v).1.Get k = v ∧
    ((m.Set k v1).1.Set k v2).2 = none ∧ ((m.Set k v1).1.Set k v2).1.Get k = v2 := by
  simp [memory.Set, memory.Get, AList.lookup_insert]

/-- C10: for a key absent from the store, `Get(key)` returns the empty byte sequence, of
length 0; this holds for every key of a store fresh from `newMemory`. -/
theorem C10_Get_absent (m : memory) (key : String) :
    (key ∉ m.items → m.Get key = some [] ∧ (m.Get key).len = 0) ∧
    ((newMemory ()).Get key = some [] ∧ ((newMemory ()).Get key).len = 0) := by
  constructor
  · intro h
    have hlk : m.items.lookup key = none := AList.lookup_eq_none.mpr h
    simp [memory.Get, hlk, ByteSlice.len]
  · simp [memory.Get, newMemory, ByteSlice.len]

/-- C11: in every store state, after `Set(k, v)` then `Remove(k)`, `Remove` has returned a
nil error and `Get(k)` returns the empty byte sequence. -/
theorem C11_Set_Remove_Get (m : memory) (k : String) (v : ByteSlice) :
    ((m.Set k v).1.Remove k).2 = none ∧
    ((m.Set k v).1.Remove k).1.Get k = some [] ∧
    (((m.Set k v).1.Remove k).1.Get k).len = 0 := by
  simp [memory.Set, memory.Remove, memory.Get, AList.lookup_erase, ByteSlice.len]

/-- C12: for a key absent from the store, `Remove(key)` returns a nil error and leaves the
store as it was: the same map, so `Get` of every key returns what it returned before. -/
theorem C12_Remove_absent (m : memory) (key : String) (h : key ∉ m.items) :
    (m.Remove key).2 = none ∧ (m.Remove key).1 = m ∧
    ∀ k' : String, (m.Remove key).1.Get k' = m.Get k' := by
  have hitems : m.items.erase key = m.items :=
    AList.ext (List.kerase_of_not_mem_keys h)
  have hm : (m.Remove key).1 = m := by
    cases m
    simp only [memory.Remove] at *
    exact congrArg memory.mk hitems
  exact ⟨rfl, hm, fun k' => by rw [hm]⟩

theorem C12_Remove_absent_witness :
    (((newMemory ()).Set "a" (some [1, 2])).1.Remove "absent").2 = none ∧
    (((newMemory ()).Set "a" (some [1, 2])).1.Remove "absent").1
      = ((newMemory ()).Set "a" (some [1, 2])).1 ∧
    ∀ k' : String, (((newMemory ()).Set "a" (some [1, 2])).1.Remove "absent").1.Get k'
      = ((newMemory ()).Set "a" (some [1, 2])).1.Get k' :=
  C12_Remove_absent ((newMemory ()).Set "a" (some [1, 2])).1 "absent" (by decide)

/-- C13, as stated, fails for the nil slice: it has length 0, yet `Get("k")` after
`Set("k", nil)` returns the nil slice, while `Get("k")` on a store that never held `"k"`
returns the non-nil empty slice `[]byte{}`; the two results differ. -/
theorem C13_counterexample :
    ByteSlice.len none = 0 ∧
    ((newMemory ()).Set "k" none).1.Get "k" = none ∧
    (newMemory ()).Get "k" = some [] ∧
    ((newMemory ()).Set "k" none).1.Get "k" ≠ (newMemory ()).Get "k" := by
  have hset : ((newMemory ()).Set "k" none).1.Get "k" = none := by
    simp only [memory.Set, memory.Get, AList.lookup_insert]
  have hget : (newMemory ()).Get "k" = some [] := by
    simp only [memory.Get, newMemory, AList.lookup_empty]
  refine ⟨rfl, hset, hget, ?_⟩
  rw [hset, hget]
  exact fun h => Option.noConfusion h

/-- C13, amended: for every key `k` and every empty value `v` (length 0), `Get(k)` after
`Set(k, v)` has length 0, as has `Get` of a key absent from a store; the two results are
the same value when `v` is the non-nil empty slice, and for the nil slice `Get(k)` after
`Set(k, nil)` is the nil slice while `Get` of an absent key is the non-nil empty slice. -/
theorem C13_Get_empty_value (m m' : memory) (k k' : String) (v : ByteSlice)
    (hv : v.len = 0) (habs : k' ∉ m'.items) :
    ((m.Set k v).1.Get k).len = 0 ∧ (m'.Get k').len = 0 ∧
    (v ≠ none → (m.Set k v).1.Get k = m'.Get k') ∧
    (v = none → (m.Set k v).1.Get k = none ∧ m'.Get k' = some []) := by
  have hset : (m.Set k v).1.Get k = v := by
    simp [memory.Set, memory.Get, AList.lookup_insert]
  have hget : m'.Get k' = some [] := by
    simp [memory.Get, AList.lookup_eq_none.mpr habs]
  refine ⟨by rw [hset]; exact hv, by rw [hget]; rfl, ?_, ?_⟩
  · intro hne
    rw [hset, hget]
    cases v with
    | none => exact absurd rfl hne
    | some bs =>
      have : bs.length = 0 := hv
      rw [List.length_eq_zero.mp this]
  · intro hnil
    exact ⟨by rw [hset, hnil], hget⟩

theorem C13_Get_empty_value_witness :
    (((newMemory ()).Set "k" (some [])).1.Get "k").len = 0 ∧
    ((newMemory ()).Get "absent").len = 0 ∧
    ((some [] : ByteSlice) ≠ none →
      ((newMemory ()).Set "k" (some [])).1.Get "k" = (newMemory ()).Get "absent") ∧
    ((some [] : ByteSlice) = none →
      ((newMemory ()).Set "k" (some [])).1.Get "k" = none ∧
      (newMemory ()).Get "absent" = some []) :=
  C13_Get_empty_value (newMemory ()) (newMemory ()) "k" "absent" (some []) rfl
    (AList.not_mem_empty _)

/-- C14: a `RegisterBrain` call that does not panic keeps every earlier entry: a name
registered before with factory `f` is registered afterwards with `f`, and `DetectBrain` of
that name returns the same result as before. -/
theorem C14_RegisterBrain_keeps_entries {F : Type} (brains brains' : GoMap (Factory F))
    (name : String) (m : Factory F) (hreg : RegisterBrain brains name m = .ok brains')
    (n : String) (f : Factory F) (hn : brains.lookup n = some f) :
    brains'.lookup n = some f ∧ DetectBrain brains' n = DetectBrain brains n ∧
    DetectBrain brains' n = (f, none) := by
  obtain ⟨_, hnot, rfl⟩ := (RegisterBrain_ok_iff _ _ _ _).mp hreg
  have hmem : n ∈ brains := AList.lookup_isSome.mp (by simp [hn])
  have hne : n ≠ name := fun h => hnot (h ▸ hmem)
  have hlk : (brains.insert name m).lookup n = some f := by
    rw [AList.lookup_insert_ne hne, hn]
  exact ⟨hlk, by rw [DetectBrain_of_lookup hlk, DetectBrain_of_lookup hn],
    DetectBrain_of_lookup hlk⟩

theorem C14_RegisterBrain_keeps_entries_witness :
    ((brains₀ : GoMap (Factory Nat)).insert "memory" (some 1) |>.insert "redis"
        (some 2)).lookup "memory" = some (some 1) ∧
    DetectBrain ((brains₀ : GoMap (Factory Nat)).insert "memory" (some 1) |>.insert "redis"
        (some 2)) "memory"
      = DetectBrain ((brains₀ : GoMap (Factory Nat)).insert "memory" (some 1)) "memory" ∧
    DetectBrain ((brains₀ : GoMap (Factory Nat)).insert "memory" (some 1) |>.insert "redis"
        (some 2)) "memory" = (some 1, none) :=
  C14_RegisterBrain_keeps_entries ((brains₀ : GoMap (Factory Nat)).insert "memory" (some 1))
    _ "redis" (some 2) rfl "memory" (some 1) (by decide)

theorem string_length_eq_zero_iff (s : String) : s.length = 0 ↔ s = "" := by
  constructor
  · intro h
    have hd : s.data = [] := List.length_eq_zero.mp h
    exact String.ext hd
  · rintro rfl
    rfl

theorem Message.written_all_encodes {U A : Type} (userOk : U → Bool) (valueOk : A → Bool)
    (msg : Message U A)
    (hTo : userOk msg.To = true) (hFrom : userOk msg.From = true)
    (hSender : userOk msg.Sender = true)
    (hMate : ∀ m, msg.Mate = some m → ∀ e ∈ m.entries, valueOk e.2 = true)
    (hLat : msg.Location.Lat.isInfOrNaN = false)
    (hLong : msg.Location.Long.isInfOrNaN = false) :
    (msg.written.all fun f => encodes userOk valueOk f.value) = true := by
  rw [List.all_eq_true]
  intro f hf
  have hmem : f ∈ msg.fields := List.mem_of_mem_filter hf
  simp only [Message.fields, List.mem_cons, List.mem_singleton, List.not_mem_nil,
    or_false] at hmem
  rcases hmem with rfl | rfl | rfl | rfl | rfl | rfl | rfl | rfl
  · rfl
  · exact hTo
  · exact hFrom
  · exact hSender
  · rfl
  · rfl
  · cases hm : msg.Mate with
    | none => rfl
    | some m =>
      simp only [encodes, List.all_eq_true]
      exact fun e he => hMate m hm e he
  · simp [encodes, Location.members, hLat, hLong]

/-- C15, as stated, fails on a `Message` with a location present: `Lat` 1 and `Long` 2
(bit patterns `0x3FF0000000000000` and `0x4000000000000000`) are written under the keys
`Lat` and `Long`, not `lat` and `long`.  It also fails when `Lat` is NaN (bit pattern
`0x7FF8000000000001`): `json.Marshal` returns an error and writes no member at all. -/
theorem C15_counterexample :
    Marshal (fun _ => true) (fun _ => true)
      (Message.mk "" () () () "hi" false none
        (Location.mk ⟨0x3FF0000000000000⟩ ⟨0x4000000000000000⟩) : Message Unit Unit)
      = some [("to", .user ()), ("from", .user ()), ("sender", .user ()),
          ("content", .string "hi"),
          ("location", .struct [("Lat", ⟨0x3FF0000000000000⟩), ("Long", ⟨0x4000000000000000⟩)])] ∧
    keys (Location.mk ⟨0x3FF0000000000000⟩ ⟨0x4000000000000000⟩).members = ["Lat", "Long"] ∧
    keys (Location.mk ⟨0x3FF0000000000000⟩ ⟨0x4000000000000000⟩).members ≠ ["lat", "long"] ∧
    Marshal (fun _ => true) (fun _ => true)
      (Message.mk "c" () () () "hi" false none (Location.mk ⟨0x7FF8000000000001⟩ ⟨0⟩) :
        Message Unit Unit) = none :=
  ⟨rfl, rfl, by decide, rfl⟩

/-- C15, amended: for every `Message` that `json.Marshal` encodes (its `To`, `From`,
`Sender` and the values of `Mate` encode, `Lat` and `Long` are neither NaN nor an
infinity), `json.Marshal` returns the encoding, and in it each of `channel`, `broadcast`
and `mate` is left out when the field holds its empty value (the empty string, false, a
nil or empty map) and written otherwise; a `location` member that is written has exactly
the keys `Lat` and `Long`. -/
theorem C15_Marshal_optional_fields {U A : Type} (userOk : U → Bool) (valueOk : A → Bool)
    (msg : Message U A)
    (hTo : userOk msg.To = true) (hFrom : userOk msg.From = true)
    (hSender : userOk msg.Sender = true)
    (hMate : ∀ m, msg.Mate = some m → ∀ e ∈ m.entries, valueOk e.2 = true)
    (hLat : msg.Location.Lat.isInfOrNaN = false)
    (hLong : msg.Location.Long.isInfOrNaN = false) :
    ∃ out, Marshal userOk valueOk msg = some out ∧
      ("channel" ∈ keys out ↔ msg.Channel ≠ "") ∧
      ("broadcast" ∈ keys out ↔ msg.Broadcast = true) ∧
      ("mate" ∈ keys out ↔ ∃ m, msg.Mate = some m ∧ m.len ≠ 0) ∧
      (∀ v, ("location", v) ∈ out →
        v = .struct [("Lat", msg.Location.Lat), ("Long", msg.Location.Long)]) := by
  have hall := msg.written_all_encodes userOk valueOk hTo hFrom hSender hMate hLat hLong
  refine ⟨msg.written.map fun f => (f.key, f.value), by simp only [Marshal, hall, if_true], ?_⟩
  clear hall hTo hFrom hSender hMate hLat hLong
  obtain ⟨ch, uto, ufrom, usender, content, bc, mate, loc⟩ := msg
  have hmate : isEmptyValue (FieldValue.map mate : FieldValue U A) = false ↔
      ∃ m, mate = some m ∧ m.len ≠ 0 := by
    rcases mate with _ | m <;> simp [isEmptyValue]
  have hch : (ch.length == 0) = false ↔ ch ≠ "" := by
    rw [← not_iff_not]
    simp [string_length_eq_zero_iff]
  have hs : isEmptyValue (FieldValue.string ch : FieldValue U A) = (ch.length == 0) := rfl
  have hb : ∀ b, isEmptyValue (FieldValue.bool b : FieldValue U A) = !b := fun _ => rfl
  have hl : isEmptyValue (FieldValue.struct loc.members : FieldValue U A) = false := rfl
  simp only [← hmate, ← hch]
  cases h1 : (ch.length == 0) <;> cases bc <;>
    cases h3 : isEmptyValue (FieldValue.map mate : FieldValue U A) <;>
    simp [Message.written, Message.fields, keys, List.filter_cons, h1, h3, hs, hb, hl,
      Location.members]

theorem C15_Marshal_optional_fields_witness :
    ∃ out, Marshal (fun _ : Unit => true) (fun n : Nat => decide (n < 10))
        (Message.mk "general" () () () "hi" true
          (some ((∅ : GoMap Nat).insert "retries" 3))
          (Location.mk ⟨0x3FF0000000000000⟩ ⟨0x4000000000000000⟩)) = some out ∧
      ("channel" ∈ keys out ↔ "general" ≠ "") ∧
      ("broadcast" ∈ keys out ↔ true = true) ∧
      ("mate" ∈ keys out ↔
        ∃ m : GoMap Nat, some ((∅ : GoMap Nat).insert "retries" 3) = some m ∧ m.len ≠ 0) ∧
      (∀ v, ("location", v) ∈ out →
        v = .struct [("Lat", ⟨0x3FF0000000000000⟩), ("Long", ⟨0x4000000000000000⟩)]) :=
  C15_Marshal_optional_fields (fun _ : Unit => true) (fun n : Nat => decide (n < 10))
    (Message.mk "general" () () () "hi" true (some ((∅ : GoMap Nat).insert "retries" 3))
      (Location.mk ⟨0x3FF0000000000000⟩ ⟨0x4000000000000000⟩))
    rfl rfl rfl (by
      intro m hm e he
      cases hm
      have : e = ⟨"retries", 3⟩ := by simpa using he
      subst this
      rfl) (by decide) (by decide)

/-- C17: `Set(k, v)` changes the key `k` only: for `k' ≠ k`, `Get(k')` returns after the
call what it returned before, and the keys stored afterwards are `k` and the keys stored
before. -/
theorem C17_Set_frame (m : memory) (k k' : String) (v : ByteSlice) (h : k ≠ k') :
    (m.Set k v).1.Get k' = m.Get k' ∧
    ∀ x : String, x ∈ (m.Set k v).1.items ↔ x = k ∨ x ∈ m.items := by
  refine ⟨?_, fun x => AList.mem_insert m.items⟩
  simp only [memory.Set, memory.Get]
  rw [AList.lookup_insert_ne (Ne.symm h)]

theorem C17_Set_frame_witness :
    ((((newMemory ()).Set "a" (some [1])).1.Set "b" (some [2])).1.Get "a"
      = ((newMemory ()).Set "a" (some [1])).1.Get "a") ∧
    ∀ x : String, x ∈ (((newMemory ()).Set "a" (some [1])).1.Set "b" (some [2])).1.items ↔
      x = "b" ∨ x ∈ ((newMemory ()).Set "a" (some [1])).1.items :=
  C17_Set_frame ((newMemory ()).Set "a" (some [1])).1 "b" "a" (some [2]) (by decide)

/-- C18: `Remove(k)` deletes `k` only, for a stored key `k` as for any other: afterwards
`k` is absent and `Get(k)` is the empty byte sequence, and for `k' ≠ k`, `Get(k')` returns
what it returned before; the keys stored afterwards are the keys stored before other than
`k`. -/
theorem C18_Remove_frame (m : memory) (k k' : String) (h : k ≠ k') :
    k ∉ (m.Remove k).1.items ∧ (m.Remove k).1.Get k = some [] ∧
    (m.Remove k).1.Get k' = m.Get k' ∧
    ∀ x : String, x ∈ (m.Remove k).1.items ↔ x ≠ k ∧ x ∈ m.items := by
  refine ⟨?_, ?_, ?_, fun x => AList.mem_erase⟩
  · simp [memory.Remove, AList.mem_erase]
  · simp [memory.Remove, memory.Get, AList.lookup_erase]
  · simp only [memory.Remove, memory.Get]
    rw [AList.lookup_erase_ne (Ne.symm h)]

theorem C18_Remove_frame_witness :
    "a" ∈ (((newMemory ()).Set "a" (some [1])).1.Set "b" (some [2])).1.items ∧
    "a" ∉ ((((newMemory ()).Set "a" (some [1])).1.Set "b" (some [2])).1.Remove "a").1.items ∧
    ((((newMemory ()).Set "a" (some [1])).1.Set "b" (some [2])).1.Remove "a").1.Get "a"
      = some [] ∧
    ((((newMemory ()).Set "a" (some [1])).1.Set "b" (some [2])).1.Remove "a").1.Get "b"
      = (((newMemory ()).Set "a" (some [1])).1.Set "b" (some [2])).1.Get "b" ∧
    ∀ x : String,
      x ∈ ((((newMemory ()).Set "a" (some [1])).1.Set "b" (some [2])).1.Remove "a").1.items ↔
      x ≠ "a" ∧ x ∈ (((newMemory ()).Set "a" (some [1])).1.Set "b" (some [2])).1.items :=
  ⟨by decide,
    C18_Remove_frame (((newMemory ()).Set "a" (some [1])).1.Set "b" (some [2])).1 "a" "b"
      (by decide)⟩

/-- C19: in every registry built from the fresh one by successful `RegisterBrain` calls,
the empty string is not a registered name; so `DetectBrain("")` finds no exact match, and
it returns a nil error, or a non-nil factory, only when the registry holds exactly one
entry, whose factory it then returns. -/
theorem C19_empty_name_never_registered {F : Type} (brains : GoMap (Factory F))
    (hb : Built brains) :
    "" ∉ brains ∧ brains.lookup "" = none ∧
    ((DetectBrain brains "").2 = none → brains.len = 1) ∧
    (∀ f : F, (DetectBrain brains "").1 = some f → brains.len = 1) ∧
    (brains.len = 1 → ∀ e ∈ brains.entries, DetectBrain brains "" = (e.2, none)) := by
  have hno : brains.lookup "" = none := lookup_none_of_not_mem hb.empty_not_mem
  have key : ∀ r : Factory F × error, DetectBrain brains "" = r →
      brains.len ≠ 1 → r.1 = none ∧ r.2 ≠ none := by
    intro r hr h1
    by_cases h0 : brains.len = 0
    · rw [DetectBrain_of_len_zero "" h0] at hr
      subst hr
      exact ⟨rfl, fun h => Option.noConfusion h⟩
    · rw [DetectBrain_empty_of_len_many hno h0 h1] at hr
      subst hr
      exact ⟨rfl, fun h => Option.noConfusion h⟩
  refine ⟨hb.empty_not_mem, hno, ?_, ?_, ?_⟩
  · intro herr
    by_contra h1
    exact (key _ rfl h1).2 herr
  · intro f hf
    by_contra h1
    rw [(key _ rfl h1).1] at hf
    exact Option.noConfusion hf
  · intro h1 e he
    exact DetectBrain_empty_of_len_one hno h1 he

theorem C19_empty_name_never_registered_witness :
    "" ∉ (brains₀ : GoMap (Factory Nat)).insert "memory" (some 1) ∧
    ((brains₀ : GoMap (Factory Nat)).insert "memory" (some 1)).lookup "" = none ∧
    ((DetectBrain ((brains₀ : GoMap (Factory Nat)).insert "memory" (some 1)) "").2 = none →
      GoMap.len ((brains₀ : GoMap (Factory Nat)).insert "memory" (some 1)) = 1) ∧
    (∀ f : Nat,
      (DetectBrain ((brains₀ : GoMap (Factory Nat)).insert "memory" (some 1)) "").1 = some f →
      GoMap.len ((brains₀ : GoMap (Factory Nat)).insert "memory" (some 1)) = 1) ∧
    (GoMap.len ((brains₀ : GoMap (Factory Nat)).insert "memory" (some 1)) = 1 →
      ∀ e ∈ ((brains₀ : GoMap (Factory Nat)).insert "memory" (some 1)).entries,
        DetectBrain ((brains₀ : GoMap (Factory Nat)).insert "memory" (some 1)) ""
          = (e.2, none)) :=
  C19_empty_name_never_registered _ (Built.register "memory" (some 1) Built.fresh rfl)

/-- C20: in every registry reachable after `init`, the name `memory` is registered with
`newMemory`: `DetectBrain("memory")` returns `newMemory` and a nil error, the registry is
not empty and no `DetectBrain` call returns the error `no Brain available`, and
`RegisterBrain("memory", f)` panics for every `f`. -/
theorem C20_memory_always_registered (brains : GoMap (Factory (Unit → memory)))
    (h : AfterInit brains) (name : String) (f : Factory (Unit → memory)) :
    brains.lookup "memory" = some (some newMemory) ∧
    DetectBrain brains "memory" = (some newMemory, none) ∧
    brains.len ≠ 0 ∧
    (DetectBrain brains name).2 ≠ some "no Brain available" ∧
    ∃ msg, RegisterBrain brains "memory" f = .error msg := by
  have hlk := h.lookup_memory
  have hmem : "memory" ∈ brains := AList.lookup_isSome.mp (by simp [hlk])
  have h0 : brains.len ≠ 0 := len_ne_zero_of_mem hmem
  refine ⟨hlk, DetectBrain_of_lookup hlk, h0, ?_,
    (RegisterBrain_error_iff _ _ _).mpr (Or.inr hmem)⟩
  cases hn : brains.lookup name with
  | some g => simp [DetectBrain_of_lookup hn]
  | none =>
    by_cases hname : name = ""
    · subst hname
      by_cases h1 : brains.len = 1
      · obtain ⟨x, hx⟩ := List.length_eq_one.mp (show brains.entries.length = 1 from h1)
        have hxm : x ∈ brains.entries := by simp [hx]
        simp [DetectBrain_empty_of_len_one hn h1 hxm]
      · simp [DetectBrain_empty_of_len_many hn h0 h1]
    · rw [DetectBrain_unknown hn h0 hname]
      intro heq
      exact unknown_ne_no_Brain name (Option.some.inj heq)

theorem C20_memory_always_registered_witness :
    ((brains₀ : GoMap (Factory (Unit → memory))).insert "memory" (some newMemory)).lookup
      "memory" = some (some newMemory) ∧
    DetectBrain ((brains₀ : GoMap (Factory (Unit → memory))).insert "memory" (some newMemory))
      "memory" = (some newMemory, none) ∧
    GoMap.len ((brains₀ : GoMap (Factory (Unit → memory))).insert "memory" (some newMemory))
      ≠ 0 ∧
    (DetectBrain ((brains₀ : GoMap (Factory (Unit → memory))).insert "memory" (some newMemory))
      "").2 ≠ some "no Brain available" ∧
    ∃ msg, RegisterBrain
      ((brains₀ : GoMap (Factory (Unit → memory))).insert "memory" (some newMemory))
      "memory" none = .error msg :=
  C20_memory_always_registered _ (AfterInit.start rfl) "" none

end rboot
